import Mathlib

/-!
Shallow embedding of the access-tuple reconciliation engine and the model
identity client of the terraform-provider-juju repository, together with
proofs of the specified properties.

The Go sources embedded here are:
* `internal/provider/resource_access_generic_uuid.go` — `diffSet`,
  `diffPlans`, `planToTuples`, `tuplesToPlan`, `makeTuples`,
  `genericJAASAccessResource.Create/Read/Update`,
  `genericJAASAccessModelResource.getTuples`;
* `internal/juju/client.go` — `sharedClient.IsJAAS`, `sharedClient.ModelUUID`;
* the jaas client file — `jaasClient.ReadTuples` (paginated listing).

Terraform `types.Set` values of strings are modelled as `List String`
(a Terraform set holds distinct elements; order is irrelevant and all
statements below are membership-based).  Remote calls are modelled by
passing their outcomes explicitly.
-/

set_option maxRecDepth 4000

/-- `params.RelationshipTuple`: a directed, typed edge `(object, relation,
targetObject)`. -/
structure RelationshipTuple where
  object : String
  relation : String
  targetObject : String
deriving DecidableEq, Repr

/-- `genericJAASAccessModel`: the three subject sets plus the access
relation.  Terraform string sets become lists of strings; the zero value of
`types.String` is modelled as `""`. -/
structure GenericJAASAccessModel where
  users : List String
  serviceAccounts : List String
  groups : List String
  access : String
deriving DecidableEq, Repr

/-- `diffSet(current, desired)` from `resource_access_generic_uuid.go`:
for each element of `current`, scan `desired` for a structurally equal
element; keep the element when none is found. -/
def diffSet (current desired : List String) : List String :=
  current.filter (fun source => !(desired.any (fun target => source == target)))

/-- `diffPlans(plan, state)` from `resource_access_generic_uuid.go`:
`toAdd` holds, per subject set, the elements of the plan absent from the
state; `toRemove` holds the elements of the state absent from the plan.
The `access` fields of both results are left at the zero value, as in the
source. -/
def diffPlans (plan state : GenericJAASAccessModel) :
    GenericJAASAccessModel × GenericJAASAccessModel :=
  let toAdd : GenericJAASAccessModel :=
    { users := diffSet plan.users state.users
      groups := diffSet plan.groups state.groups
      serviceAccounts := diffSet plan.serviceAccounts state.serviceAccounts
      access := "" }
  let toRemove : GenericJAASAccessModel :=
    { users := diffSet state.users plan.users
      groups := diffSet state.groups plan.groups
      serviceAccounts := diffSet state.serviceAccounts plan.serviceAccounts
      access := "" }
  (toAdd, toRemove)

theorem mem_diffSet (x : String) (c d : List String) :
    x ∈ diffSet c d ↔ x ∈ c ∧ x ∉ d := by
  simp only [diffSet, List.mem_filter, Bool.not_eq_true', List.any_eq_false, beq_iff_eq]
  constructor
  · rintro ⟨hc, hd⟩
    exact ⟨hc, fun hx => hd x hx rfl⟩
  · rintro ⟨hc, hd⟩
    exact ⟨hc, fun y hy hxy => hd (hxy ▸ hy)⟩

/-- C1: for every desired state `plan` and previous state `state`,
`diffPlans` computes, independently for each of the three subject sets,
an add batch equal to the set difference `plan \ state` and a remove batch
equal to `state \ plan` (unchanged members appear in neither batch), and
applying both to the previous state yields the desired state:
`(state ∪ toAdd) \ toRemove = plan`, stated element-wise. -/
theorem diffPlans_diff_correct (plan state : GenericJAASAccessModel) (x : String) :
    (x ∈ (diffPlans plan state).1.users ↔ x ∈ plan.users ∧ x ∉ state.users) ∧
    (x ∈ (diffPlans plan state).1.groups ↔ x ∈ plan.groups ∧ x ∉ state.groups) ∧
    (x ∈ (diffPlans plan state).1.serviceAccounts ↔
      x ∈ plan.serviceAccounts ∧ x ∉ state.serviceAccounts) ∧
    (x ∈ (diffPlans plan state).2.users ↔ x ∈ state.users ∧ x ∉ plan.users) ∧
    (x ∈ (diffPlans plan state).2.groups ↔ x ∈ state.groups ∧ x ∉ plan.groups) ∧
    (x ∈ (diffPlans plan state).2.serviceAccounts ↔
      x ∈ state.serviceAccounts ∧ x ∉ plan.serviceAccounts) ∧
    (((x ∈ state.users ∨ x ∈ (diffPlans plan state).1.users) ∧
        x ∉ (diffPlans plan state).2.users) ↔ x ∈ plan.users) ∧
    (((x ∈ state.groups ∨ x ∈ (diffPlans plan state).1.groups) ∧
        x ∉ (diffPlans plan state).2.groups) ↔ x ∈ plan.groups) ∧
    (((x ∈ state.serviceAccounts ∨ x ∈ (diffPlans plan state).1.serviceAccounts) ∧
        x ∉ (diffPlans plan state).2.serviceAccounts) ↔ x ∈ plan.serviceAccounts) := by
  simp only [diffPlans, mem_diffSet]
  constructor
  · tauto
  constructor
  · tauto
  constructor
  · tauto
  constructor
  · tauto
  constructor
  · tauto
  constructor
  · tauto
  exact ⟨by tauto, by tauto, by tauto⟩

/-- names.NewUserTag(s).String() as used on the user and service-account
names occurring here: the kind "user" followed by a dash and the name. -/
def userNameToTagf (s : String) : String := "user-" ++ s

/-- groupNameToTagf from planToTuples: the kind "group" followed by a dash
and the name. -/
def groupNameToTagf (s : String) : String := "group-" ++ s

/-- makeTuples from the source: one tuple per item, each a copy of the base
tuple with its object field replaced by the tagged item. -/
def makeTuples (baseTuple : RelationshipTuple) (items : List String)
    (idToTag : String → String) : List RelationshipTuple :=
  items.map (fun item => { baseTuple with object := idToTag item })

/-- planToTuples from the source: the base tuple stores the target tag in
its object field and the plan's access in its relation field; then one
tuple is emitted per user, group and service account, overwriting the
object field with the subject's tag (users and service accounts via the
user tag, groups via the group tag).  As in the source, the targetObject
field is never assigned and stays at its zero value. -/
def planToTuples (targetTag : String) (plan : GenericJAASAccessModel) :
    List RelationshipTuple :=
  let baseTuple : RelationshipTuple :=
    { object := targetTag, relation := plan.access, targetObject := "" }
  makeTuples baseTuple plan.users userNameToTagf ++
    makeTuples baseTuple plan.groups groupNameToTagf ++
    makeTuples baseTuple plan.serviceAccounts userNameToTagf

/-- getTuples from genericJAASAccessModelResource: the base tuple stores
tag-uuid in its object field and the plan's access in its relation field;
one tuple per user with object "user-"++u, per group with "group-"++g, and
per service account with "group-"++s, exactly as written in the source (the
service-account branch uses the group tag and the targetObject field is
never assigned). -/
def getTuples (tag uuid access : String)
    (users groups serviceAccounts : List String) : List RelationshipTuple :=
  let baseTuple : RelationshipTuple :=
    { object := tag ++ "-" ++ uuid, relation := access, targetObject := "" }
  (users.map (fun user => { baseTuple with object := "user-" ++ user })) ++
    (groups.map (fun group => { baseTuple with object := "group-" ++ group })) ++
    (serviceAccounts.map (fun serviceAccount =>
      { baseTuple with object := "group-" ++ serviceAccount }))

/-- A call issued by the provider against the JAAS relation transport. -/
inductive ControllerCall where
  | addTuples (tuples : List RelationshipTuple)
  | deleteTuples (tuples : List RelationshipTuple)
deriving DecidableEq, Repr

/-- genericJAASAccessResource.Create: a single AddTuples call carrying the
full batch built by planToTuples. -/
def createTrace (targetID : String) (plan : GenericJAASAccessModel) :
    List ControllerCall :=
  [ControllerCall.addTuples (planToTuples targetID plan)]

/-- genericJAASAccessResource.Update: compute diffPlans, issue AddTuples
with the add batch; on add failure return immediately; otherwise issue
DeleteTuples with the remove batch.  addOk is the outcome of the AddTuples
call; the result is the sequence of controller calls issued. -/
def updateTrace (plan state : GenericJAASAccessModel) (targetID : String)
    (addOk : Bool) : List ControllerCall :=
  let toAdd := (diffPlans plan state).1
  let toRemove := (diffPlans plan state).2
  let addCall := ControllerCall.addTuples (planToTuples targetID toAdd)
  if addOk then
    [addCall, ControllerCall.deleteTuples (planToTuples targetID toRemove)]
  else
    [addCall]

/-- C2: in every Update the add-tuples call is issued first; a remove-tuples
call appears in the trace only directly after the add-tuples call, and only
when the add call succeeded. -/
theorem update_add_call_before_remove_call (plan state : GenericJAASAccessModel)
    (targetID : String) (addOk : Bool) :
    ∃ a, (updateTrace plan state targetID addOk = [ControllerCall.addTuples a] ∧
        addOk = false) ∨
      ∃ r, updateTrace plan state targetID addOk =
          [ControllerCall.addTuples a, ControllerCall.deleteTuples r] ∧
        addOk = true := by
  cases addOk
  · exact ⟨_, Or.inl ⟨rfl, rfl⟩⟩
  · exact ⟨_, Or.inr ⟨_, rfl, rfl⟩⟩

/-- Concrete access plan used for the no-op update scenario. -/
def demoAccessPlan : GenericJAASAccessModel :=
  { users := ["alice"], serviceAccounts := [], groups := [], access := "reader" }

/-- C5 counterexample: with a desired state equal to the previous state
(users alice, relation reader) the generic Update still issues an
add-tuples call followed by a remove-tuples call, both with empty batches;
the trace of controller calls is not empty as the claim requires. -/
theorem update_noop_still_calls_counterexample :
    updateTrace demoAccessPlan demoAccessPlan "model-1234" true =
      [ControllerCall.addTuples [], ControllerCall.deleteTuples []] ∧
    updateTrace demoAccessPlan demoAccessPlan "model-1234" true ≠ [] := by
  exact ⟨by decide, by decide⟩

theorem diffSet_eq_nil_of_subset (a b : List String) (h : ∀ x ∈ a, x ∈ b) :
    diffSet a b = [] := by
  have hall : ∀ x ∈ a, ¬((fun source =>
      !(b.any (fun target => source == target))) x = true) := by
    intro x hx
    simp only [Bool.not_eq_true', List.any_eq_false, beq_iff_eq, not_forall]
    exact ⟨x, h x hx, by simp⟩
  simpa [diffSet] using List.filter_eq_nil_iff.mpr hall

/-- C5 amended: if the desired state equals the previous state element-wise
in each of the three subject sets, both batches computed by Update are
empty, so no tuple is added or removed, but the generic Update still issues
one add-tuples call and one remove-tuples call, each with an empty batch. -/
theorem update_noop_empty_batches (plan state : GenericJAASAccessModel)
    (targetID : String)
    (hu : ∀ x, x ∈ plan.users ↔ x ∈ state.users)
    (hg : ∀ x, x ∈ plan.groups ↔ x ∈ state.groups)
    (hs : ∀ x, x ∈ plan.serviceAccounts ↔ x ∈ state.serviceAccounts) :
    updateTrace plan state targetID true =
      [ControllerCall.addTuples [], ControllerCall.deleteTuples []] := by
  have h1 := diffSet_eq_nil_of_subset plan.users state.users
    (fun x hx => (hu x).mp hx)
  have h2 := diffSet_eq_nil_of_subset plan.groups state.groups
    (fun x hx => (hg x).mp hx)
  have h3 := diffSet_eq_nil_of_subset plan.serviceAccounts state.serviceAccounts
    (fun x hx => (hs x).mp hx)
  have h4 := diffSet_eq_nil_of_subset state.users plan.users
    (fun x hx => (hu x).mpr hx)
  have h5 := diffSet_eq_nil_of_subset state.groups plan.groups
    (fun x hx => (hg x).mpr hx)
  have h6 := diffSet_eq_nil_of_subset state.serviceAccounts plan.serviceAccounts
    (fun x hx => (hs x).mpr hx)
  simp [updateTrace, diffPlans, planToTuples, makeTuples, h1, h2, h3, h4, h5, h6]

/-- C5 amended witness: at the concrete no-op input the two calls carry
empty batches. -/
theorem update_noop_empty_batches_witness :
    updateTrace demoAccessPlan demoAccessPlan "model-4321" true =
      [ControllerCall.addTuples [], ControllerCall.deleteTuples []] :=
  update_noop_empty_batches demoAccessPlan demoAccessPlan "model-4321"
    (fun _ => Iff.rfl) (fun _ => Iff.rfl) (fun _ => Iff.rfl)

/-- C6: evaluation of the Create tuple builders at the end-to-end scenario
input.  planToTuples leaves the target tag off the emitted tuple entirely:
the target tag is stored in the object field of the base tuple and then
overwritten by the subject tag, so the targetObject field is empty instead
of holding model-1234.  The by-UUID model resource's getTuples additionally
tags a service account with the group tag instead of the user tag. -/
theorem create_tuples_missing_target_eval :
    planToTuples "model-1234"
        { users := ["alice"], serviceAccounts := [], groups := [],
          access := "reader" } =
      [{ object := "user-alice", relation := "reader", targetObject := "" }] ∧
    getTuples "model" "1234" "reader" [] [] ["sa1"] =
      [{ object := "group-sa1", relation := "reader", targetObject := "" }] := by
  exact ⟨by decide, by decide⟩

/-- One response of the paginated ListRelationshipTuples controller call:
a page of tuples, per-item errors, and the continuation token ("" on the
last page). -/
structure TupleListResponse where
  tuples : List RelationshipTuple
  errors : List String
  continuationToken : String
deriving DecidableEq, Repr

/-- jaasClient.ReadTuples loop: call the listing with the current token
(the first request carries the zero-value token ""); fail on a call error
or on per-item errors; append the page's tuples to the accumulator; return
it when the continuation token is empty, otherwise feed the token into the
next request.  The Go loop is unbounded, so a fuel argument makes the
recursion total; fuel exhaustion yields none. -/
def readTuplesLoop (list : String → Option TupleListResponse) :
    Nat → String → List RelationshipTuple → Option (List RelationshipTuple)
  | 0, _, _ => none
  | fuel + 1, token, acc =>
    match list token with
    | none => none
    | some response =>
      if response.errors.length > 0 then none
      else
        let acc2 := acc ++ response.tuples
        if response.continuationToken = "" then some acc2
        else readTuplesLoop list fuel response.continuationToken acc2

/-- jaasClient.ReadTuples: run the pagination loop from the empty token
with an empty accumulator. -/
def ReadTuples (list : String → Option TupleListResponse) (fuel : Nat) :
    Option (List RelationshipTuple) :=
  readTuplesLoop list fuel "" []

/-- pageChain list token pages holds when the listing, started at token,
yields exactly the given pages in order, each response's continuation token
addressing the next page, none carrying per-item errors, and the last page
carrying the empty token. -/
def pageChain (list : String → Option TupleListResponse) :
    String → List TupleListResponse → Bool
  | _, [] => false
  | token, p :: rest =>
    (decide (list token = some p) && p.errors.isEmpty) &&
      (if p.continuationToken = "" then rest.isEmpty
       else pageChain list p.continuationToken rest)

theorem readTuplesLoop_chain (list : String → Option TupleListResponse) :
    ∀ (pages : List TupleListResponse) (token : String)
      (acc : List RelationshipTuple) (fuel : Nat),
      pageChain list token pages = true → pages.length ≤ fuel →
      readTuplesLoop list fuel token acc =
        some (acc ++ (pages.map TupleListResponse.tuples).flatten) := by
  intro pages
  induction pages with
  | nil =>
    intro token acc fuel h
    simp [pageChain] at h
  | cons p rest ih =>
    intro token acc fuel hchain hlen
    cases fuel with
    | zero => simp at hlen
    | succ fuel =>
      simp only [pageChain, Bool.and_eq_true, decide_eq_true_eq] at hchain
      obtain ⟨⟨hlist, herr⟩, hrest⟩ := hchain
      have herr0 : p.errors.length = 0 := by
        simpa [List.isEmpty_iff, List.length_eq_zero] using herr
      by_cases htok : p.continuationToken = ""
      · have hrest0 : rest = [] := by
          simpa [htok, List.isEmpty_iff] using hrest
        subst hrest0
        simp [readTuplesLoop, hlist, herr0, htok]
      · simp only [htok, if_false] at hrest
        have hlen2 : rest.length ≤ fuel := by
          simpa using Nat.le_of_succ_le_succ hlen
        simp [readTuplesLoop, hlist, herr0, htok, ih _ _ fuel hrest hlen2,
          List.append_assoc]

/-- C3: when the controller listing forms a finite chain of pages (each
response's continuation token addressing the next request, the last token
empty) and the fuel covers the chain, ReadTuples returns the concatenation
of the tuples of all pages — never a partial page set. -/
theorem readTuples_pagination_complete (list : String → Option TupleListResponse)
    (pages : List TupleListResponse) (fuel : Nat)
    (hchain : pageChain list "" pages = true)
    (hfuel : pages.length ≤ fuel) :
    ReadTuples list fuel = some ((pages.map TupleListResponse.tuples).flatten) := by
  simpa [ReadTuples] using readTuplesLoop_chain list pages "" [] fuel hchain hfuel

/-- First demonstration page: two tuples, continuation token "a". -/
def demoPage1 : TupleListResponse :=
  { tuples := [⟨"user-u1", "reader", "model-m"⟩, ⟨"user-u2", "reader", "model-m"⟩],
    errors := [], continuationToken := "a" }

/-- Second demonstration page: two tuples, continuation token "b". -/
def demoPage2 : TupleListResponse :=
  { tuples := [⟨"user-u3", "reader", "model-m"⟩, ⟨"user-u4", "reader", "model-m"⟩],
    errors := [], continuationToken := "b" }

/-- Third demonstration page: one tuple, empty continuation token. -/
def demoPage3 : TupleListResponse :=
  { tuples := [⟨"user-u5", "reader", "model-m"⟩],
    errors := [], continuationToken := "" }

/-- A simulated 3-page controller listing with page sizes 2, 2, 1 and
tokens "a", "b", "". -/
def demoListTuples (token : String) : Option TupleListResponse :=
  if token = "" then some demoPage1
  else if token = "a" then some demoPage2
  else if token = "b" then some demoPage3
  else none

/-- C3 witness: on the simulated 3-page listing the read returns all five
tuples. -/
theorem readTuples_pagination_complete_witness :
    pageChain demoListTuples "" [demoPage1, demoPage2, demoPage3] = true ∧
    ReadTuples demoListTuples 3 =
      some (([demoPage1, demoPage2, demoPage3].map TupleListResponse.tuples).flatten) :=
  ⟨by decide, readTuples_pagination_complete demoListTuples
    [demoPage1, demoPage2, demoPage3] 3 (by decide) (by decide)⟩

/-- names.UserTagKind as compared against in the tuplesToPlan switch. -/
def UserTagKind : String := "user"

/-- jimmNames.GroupTagKind as compared against in the tuplesToPlan switch. -/
def GroupTagKind : String := "group"

/-- Result of the read-side conversion: the three subject lists built by
tuplesToPlan together with the number of error diagnostics it recorded for
objects that failed to parse. -/
structure TuplesToPlanResult where
  users : List String
  groups : List String
  serviceAccounts : List String
  parseErrors : Nat
deriving DecidableEq, Repr

/-- tuplesToPlan from the source, parametric in the external collaborators
jimmNames.ParseTag (modelled as a function from the object string to an
optional kind and identifier) and jimmNames.IsValidServiceAccountId.  For
each tuple: an unparsable object records an error diagnostic and the loop
continues; a user-kind identifier goes to the service-account list when it
matches the service-account identifier check and to the user list
otherwise; a group-kind identifier goes to the group list; any other kind
is dropped by the switch. -/
def tuplesToPlan (parseTag : String → Option (String × String))
    (isValidServiceAccountId : String → Bool) :
    List RelationshipTuple → TuplesToPlanResult
  | [] => ⟨[], [], [], 0⟩
  | tuple :: rest =>
    let r := tuplesToPlan parseTag isValidServiceAccountId rest
    match parseTag tuple.object with
    | none => { r with parseErrors := r.parseErrors + 1 }
    | some (kind, id) =>
      if kind = UserTagKind then
        if isValidServiceAccountId id then
          { r with serviceAccounts := id :: r.serviceAccounts }
        else
          { r with users := id :: r.users }
      else if kind = GroupTagKind then
        { r with groups := id :: r.groups }
      else r

/-- Classifier for the user list: a user-kind identifier that is not a
service account. -/
def userClass (parseTag : String → Option (String × String))
    (isValidServiceAccountId : String → Bool) (t : RelationshipTuple) :
    Option String :=
  match parseTag t.object with
  | some (kind, id) =>
    if kind = UserTagKind then
      (if isValidServiceAccountId id then none else some id)
    else none
  | none => none

/-- Classifier for the service-account list: a user-kind identifier that
matches the service-account identifier check. -/
def svcClass (parseTag : String → Option (String × String))
    (isValidServiceAccountId : String → Bool) (t : RelationshipTuple) :
    Option String :=
  match parseTag t.object with
  | some (kind, id) =>
    if kind = UserTagKind then
      (if isValidServiceAccountId id then some id else none)
    else none
  | none => none

/-- Classifier for the group list: a group-kind identifier. -/
def groupClass (parseTag : String → Option (String × String))
    (_isValidServiceAccountId : String → Bool) (t : RelationshipTuple) :
    Option String :=
  match parseTag t.object with
  | some (kind, id) =>
    if kind = UserTagKind then none
    else if kind = GroupTagKind then some id
    else none
  | none => none

theorem tuplesToPlan_spec (parseTag : String → Option (String × String))
    (isSvc : String → Bool) (tuples : List RelationshipTuple) :
    (tuplesToPlan parseTag isSvc tuples).users =
      tuples.filterMap (userClass parseTag isSvc) ∧
    (tuplesToPlan parseTag isSvc tuples).groups =
      tuples.filterMap (groupClass parseTag isSvc) ∧
    (tuplesToPlan parseTag isSvc tuples).serviceAccounts =
      tuples.filterMap (svcClass parseTag isSvc) ∧
    (tuplesToPlan parseTag isSvc tuples).parseErrors =
      tuples.countP (fun t => (parseTag t.object).isNone) := by
  induction tuples with
  | nil => simp [tuplesToPlan]
  | cons t rest ih =>
    obtain ⟨ihu, ihg, ihs, ihe⟩ := ih
    simp only [tuplesToPlan, List.filterMap_cons, List.countP_cons,
      userClass, groupClass, svcClass]
    cases hp : parseTag t.object with
    | none => simp [hp, ihu, ihg, ihs, ihe]
    | some p =>
      obtain ⟨kind, id⟩ := p
      by_cases hk : kind = UserTagKind
      · by_cases hsvc : isSvc id
        · simp [hp, hk, hsvc, ihu, ihg, ihs, ihe]
        · simp [hp, hk, hsvc, ihu, ihg, ihs, ihe]
      · by_cases hg : kind = GroupTagKind
        · simp [hp, hk, hg, ihu, ihg, ihs, ihe, UserTagKind, GroupTagKind]
        · simp [hp, hk, hg, ihu, ihg, ihs, ihe]

/-- C4: the read-side conversion routes every parsable tuple object by its
kind: the user list collects exactly the user-kind identifiers failing the
service-account check, the service-account list exactly the user-kind
identifiers passing it, the group list exactly the group-kind identifiers;
and for any single tuple at most one of the three classifiers fires, so an
object is folded into at most one subject set. -/
theorem tuplesToPlan_classifies_by_kind
    (parseTag : String → Option (String × String)) (isSvc : String → Bool)
    (tuples : List RelationshipTuple) :
    (tuplesToPlan parseTag isSvc tuples).users =
      tuples.filterMap (userClass parseTag isSvc) ∧
    (tuplesToPlan parseTag isSvc tuples).groups =
      tuples.filterMap (groupClass parseTag isSvc) ∧
    (tuplesToPlan parseTag isSvc tuples).serviceAccounts =
      tuples.filterMap (svcClass parseTag isSvc) ∧
    (∀ t : RelationshipTuple,
      (userClass parseTag isSvc t).isSome.toNat +
        (svcClass parseTag isSvc t).isSome.toNat +
        (groupClass parseTag isSvc t).isSome.toNat ≤ 1) := by
  obtain ⟨hu, hg, hs, _⟩ := tuplesToPlan_spec parseTag isSvc tuples
  refine ⟨hu, hg, hs, ?_⟩
  intro t
  simp only [userClass, svcClass, groupClass]
  cases hp : parseTag t.object with
  | none => simp
  | some p =>
    obtain ⟨kind, id⟩ := p
    by_cases hk : kind = UserTagKind
    · by_cases hsvc : isSvc id <;> simp [hk, hsvc]
    · by_cases hgk : kind = GroupTagKind
      · simp [hk, hgk, UserTagKind, GroupTagKind]
      · simp only [UserTagKind, GroupTagKind] at hk hgk ⊢
        simp [hk, hgk]

/-- Helper for the spec-modelled tag parser: split a character list at the
first dash into kind and identifier. -/
def parseTagChars : List Char → List Char → Option (String × String)
  | [], _ => none
  | c :: rest, acc =>
    if c = '-' then some (String.mk acc.reverse, String.mk rest)
    else parseTagChars rest (c :: acc)

/-- Modelled from the spec: jimmNames.ParseTag is an external collaborator,
not part of these sources.  The spec describes object tags as opaque
strings of the form kind-identifier, so this concrete instance splits at
the first dash and fails when no dash is present.  It is used only to
instantiate the parser parameter at concrete inputs. -/
def parseTagModel (s : String) : Option (String × String) :=
  parseTagChars s.data []

/-- Modelled from the spec: jimmNames.IsValidServiceAccountId is an
external collaborator; the spec's service-account identifier pattern is the
serviceaccount domain suffix on a user identifier, as in the round-trip
scenario user-alice@serviceaccount. -/
def isValidServiceAccountIdModel (s : String) : Bool :=
  ("@serviceaccount".data.reverse).isPrefixOf s.data.reverse

/-- genericJAASAccessResource.Read after a successful listing: convert the
tuples via tuplesToPlan — each parse failure records an error diagnostic —
then return early without setting the new state when the diagnostics hold
an error; otherwise the converted subject sets become the new state. -/
def readConvert (parseTag : String → Option (String × String))
    (isSvc : String → Bool) (tuples : List RelationshipTuple) :
    Option TuplesToPlanResult :=
  let r := tuplesToPlan parseTag isSvc tuples
  if r.parseErrors > 0 then none else some r

/-- C7 counterexample: a read whose listing returns one malformed tuple and
one parsable tuple fails as a whole — the Read aborts on the recorded error
diagnostic and sets no state — even though the conversion loop itself
skipped the malformed tuple and still produced the good user. -/
theorem read_malformed_fails_counterexample :
    readConvert parseTagModel isValidServiceAccountIdModel
        [⟨"unparsable", "reader", "model-1234"⟩,
          ⟨"user-bob", "reader", "model-1234"⟩] = none ∧
    (tuplesToPlan parseTagModel isValidServiceAccountIdModel
        [⟨"unparsable", "reader", "model-1234"⟩,
          ⟨"user-bob", "reader", "model-1234"⟩]).users = ["bob"] := by
  exact ⟨by decide, by decide⟩

/-- C7 amended: inside the conversion loop a malformed tuple object is
skipped with a recorded diagnostic and the remaining parsable tuples are
still converted, but the diagnostic is an error and the enclosing Read
aborts on it, discarding the conversion: the read operation fails exactly
when some returned tuple is malformed. -/
theorem read_malformed_aborts_after_skipping
    (parseTag : String → Option (String × String)) (isSvc : String → Bool)
    (tuples : List RelationshipTuple) :
    (readConvert parseTag isSvc tuples = none ↔
      ∃ t ∈ tuples, parseTag t.object = none) ∧
    (tuplesToPlan parseTag isSvc tuples).users =
      tuples.filterMap (userClass parseTag isSvc) ∧
    (tuplesToPlan parseTag isSvc tuples).groups =
      tuples.filterMap (groupClass parseTag isSvc) ∧
    (tuplesToPlan parseTag isSvc tuples).serviceAccounts =
      tuples.filterMap (svcClass parseTag isSvc) := by
  obtain ⟨hu, hg, hs, he⟩ := tuplesToPlan_spec parseTag isSvc tuples
  refine ⟨?_, hu, hg, hs⟩
  simp only [readConvert, gt_iff_lt]
  split_ifs with h
  · rw [he, List.countP_pos_iff] at h
    simp only [Option.isNone_iff_eq_none, decide_eq_true_eq] at h
    simpa using h
  · rw [he, List.countP_pos_iff] at h
    simp only [Option.isNone_iff_eq_none, decide_eq_true_eq] at h
    simpa using h

/-- A record of the model identity cache: model name, owner, UUID. -/
structure ModelCacheEntry where
  name : String
  owner : String
  uuid : String
deriving DecidableEq, Repr

/-- Modelled from the spec: the modelcache package is not among the
provided sources, only its callers are.  Lookup is pure storage access: it
returns the record with the given name, or the NotFound signal (none)
without triggering any refill itself. -/
def cacheLookup (cache : List ModelCacheEntry) (name : String) :
    Option ModelCacheEntry :=
  cache.find? (fun e => e.name == name)

/-- Modelled from the spec: modelcache FillCache is a total replace — the
prior contents are cleared and one record per summary of the snapshot is
inserted. -/
def fillCache (snapshot : List ModelCacheEntry) : List ModelCacheEntry :=
  snapshot

/-- Result of sharedClient.ModelUUID together with the number of cache
refills the call performed. -/
structure ModelUUIDOutcome where
  result : Except String String
  refills : Nat
deriving Repr

/-- sharedClient.ModelUUID: look the name up in the cache and return the
record's UUID on a hit; on a miss run fillModelCache once (refillOutcome is
the outcome of that controller round trip: a fresh snapshot, or an error),
propagate a refill failure, and otherwise retry the lookup exactly once on
the replaced cache, failing if it still misses. -/
def ModelUUID (cache : List ModelCacheEntry)
    (refillOutcome : Except String (List ModelCacheEntry)) (name : String) :
    ModelUUIDOutcome :=
  match cacheLookup cache name with
  | some m => ⟨Except.ok m.uuid, 0⟩
  | none =>
    match refillOutcome with
    | Except.error e => ⟨Except.error e, 1⟩
    | Except.ok snapshot =>
      match cacheLookup (fillCache snapshot) name with
      | some m => ⟨Except.ok m.uuid, 1⟩
      | none => ⟨Except.error ("model not found: " ++ name), 1⟩

/-- C8: on a cache hit ModelUUID returns the cached record's UUID with no
refill; on a miss it performs exactly one refill, returns the UUID found by
the single retry on the replaced cache, and yields a terminal error exactly
when the refill itself failed or the retry also missed. -/
theorem modelUUID_refill_retry (cache : List ModelCacheEntry)
    (refillOutcome : Except String (List ModelCacheEntry)) (name : String) :
    (∀ m, cacheLookup cache name = some m →
      ModelUUID cache refillOutcome name = ⟨Except.ok m.uuid, 0⟩) ∧
    (cacheLookup cache name = none →
      (ModelUUID cache refillOutcome name).refills = 1) ∧
    (∀ snapshot m, cacheLookup cache name = none →
      refillOutcome = Except.ok snapshot →
      cacheLookup (fillCache snapshot) name = some m →
      (ModelUUID cache refillOutcome name).result = Except.ok m.uuid) ∧
    (cacheLookup cache name = none →
      ((∃ e, (ModelUUID cache refillOutcome name).result = Except.error e) ↔
        (∃ e, refillOutcome = Except.error e) ∨
        (∃ snapshot, refillOutcome = Except.ok snapshot ∧
          cacheLookup (fillCache snapshot) name = none))) := by
  refine ⟨?_, ?_, ?_, ?_⟩
  · intro m hm
    simp [ModelUUID, hm]
  · intro hm
    cases hr : refillOutcome with
    | error e => simp [ModelUUID, hm, hr]
    | ok snapshot =>
      cases h2 : cacheLookup (fillCache snapshot) name with
      | none => simp [ModelUUID, hm, hr, h2]
      | some m => simp [ModelUUID, hm, hr, h2]
  · intro snapshot m hm hr h2
    simp [ModelUUID, hm, hr, h2]
  · intro hm
    cases hr : refillOutcome with
    | error e => simp [ModelUUID, hm, hr]
    | ok snapshot =>
      cases h2 : cacheLookup (fillCache snapshot) name with
      | none => simp [ModelUUID, hm, hr, h2]
      | some m => simp [ModelUUID, hm, hr, h2]

/-- Concrete cache record for the refill-retry scenario. -/
def demoCacheEntry : ModelCacheEntry := ⟨"m1", "admin", "uuid-1"⟩

/-- C8 witness: starting from an empty cache, a lookup for m1 misses,
the single refill installs the snapshot holding m1, and the one retry
returns its UUID. -/
theorem modelUUID_refill_retry_witness :
    (ModelUUID [] (Except.ok [demoCacheEntry]) "m1").result =
      Except.ok "uuid-1" ∧
    (ModelUUID [] (Except.ok [demoCacheEntry]) "m1").refills = 1 :=
  ⟨(modelUUID_refill_retry [] (Except.ok [demoCacheEntry]) "m1").2.2.1
      [demoCacheEntry] demoCacheEntry rfl rfl (by decide),
    (modelUUID_refill_retry [] (Except.ok [demoCacheEntry]) "m1").2.1 rfl⟩

/-- Outcome of the capability probe attempt made inside the Once guard:
obtaining the connection failed, the ListControllers call failed, or the
call succeeded. -/
inductive ProbeOutcome where
  | connError
  | probeError
  | ok
deriving DecidableEq, Repr

/-- Body of the function sharedClient.IsJAAS hands to the Once guard:
first store the caller-supplied default; return early (keeping the default)
when the connection cannot be obtained; store true when the ListControllers
probe succeeds; keep the default when it errors.  Both errors are consumed
here — the function is total and returns only a boolean. -/
def checkJAASBody (defaultVal : Bool) (outcome : ProbeOutcome) : Bool :=
  let isJAAS := defaultVal
  match outcome with
  | ProbeOutcome.connError => isJAAS
  | ProbeOutcome.ok => true
  | ProbeOutcome.probeError => isJAAS

/-- C9: the capability check returns true when the probe call succeeds and
the caller-supplied default value when obtaining the connection or the
probe call itself errors; being total with a boolean result, it propagates
no error to the caller. -/
theorem isJAAS_default_fallback (defaultVal : Bool) :
    checkJAASBody defaultVal ProbeOutcome.ok = true ∧
    checkJAASBody defaultVal ProbeOutcome.connError = defaultVal ∧
    checkJAASBody defaultVal ProbeOutcome.probeError = defaultVal :=
  ⟨rfl, rfl, rfl⟩

/-- The memoization state owned by sharedClient: whether the Once guard has
run, and the stored isJAAS flag. -/
structure SharedClientOnce where
  done : Bool
  isJAAS : Bool
deriving DecidableEq, Repr

/-- One call to sharedClient.IsJAAS under sync.Once semantics: when the
guard has already run, return the memoized flag without touching the
network; otherwise execute the probe body once, memoize its result, and
mark the guard done.  The middle component reports whether this call
executed the probe. -/
def isJAASCall (st : SharedClientOnce) (defaultVal : Bool)
    (outcome : ProbeOutcome) : Bool × Bool × SharedClientOnce :=
  if st.done then (st.isJAAS, false, st)
  else
    let v := checkJAASBody defaultVal outcome
    (v, true, ⟨true, v⟩)

/-- runIsJAASCalls st calls: results of the calls in order, paired with the
number of probe executions.  Concurrent first-time callers block on the
Once guard until the winner finishes, so a set of concurrent and sequential
callers is modelled by the sequence of their executions. -/
def runIsJAASCalls (st : SharedClientOnce) :
    List (Bool × ProbeOutcome) → List Bool × Nat
  | [] => ([], 0)
  | (d, o) :: rest =>
    let step := isJAASCall st d o
    let tail := runIsJAASCalls step.2.2 rest
    (step.1 :: tail.1, (if step.2.1 then 1 else 0) + tail.2)

theorem runIsJAASCalls_done (st : SharedClientOnce) (h : st.done = true)
    (calls : List (Bool × ProbeOutcome)) :
    (runIsJAASCalls st calls).2 = 0 ∧
    ∀ r ∈ (runIsJAASCalls st calls).1, r = st.isJAAS := by
  induction calls with
  | nil => simp [runIsJAASCalls]
  | cons hd tl ih =>
    obtain ⟨d, o⟩ := hd
    obtain ⟨ihc, ihr⟩ := ih
    refine ⟨?_, ?_⟩
    · simp [runIsJAASCalls, isJAASCall, h, ihc]
    · intro r hr
      simp only [runIsJAASCalls, isJAASCall, h, if_true] at hr
      rcases List.mem_cons.mp hr with h1 | h1
      · simpa [h] using h1
      · exact ihr r (by simpa [h] using h1)

theorem pairwise_eq_of_const {l : List Bool} {c : Bool}
    (h : ∀ r ∈ l, r = c) : l.Pairwise (· = ·) := by
  induction l with
  | nil => simp
  | cons a t ih =>
    simp only [List.pairwise_cons]
    refine ⟨fun b hb => ?_, ih (fun r hr => h r (List.mem_cons_of_mem _ hr))⟩
    rw [h a (List.mem_cons_self _ _), h b (List.mem_cons_of_mem _ hb)]

/-- C10: starting from a fresh client, any sequence of IsJAAS calls — the
serialization of concurrent and sequential callers imposed by the Once
guard — executes the probe at most once, and all callers observe identical
results; the probe is not re-run even when its outcome was a connection or
probe error. -/
theorem isJAAS_probe_once_same_result (calls : List (Bool × ProbeOutcome)) :
    (runIsJAASCalls ⟨false, false⟩ calls).2 ≤ 1 ∧
    (runIsJAASCalls ⟨false, false⟩ calls).1.Pairwise (· = ·) := by
  cases calls with
  | nil => simp [runIsJAASCalls]
  | cons hd tl =>
    obtain ⟨d, o⟩ := hd
    obtain ⟨hc, hr⟩ :=
      runIsJAASCalls_done ⟨true, checkJAASBody d o⟩ rfl tl
    constructor
    · simp [runIsJAASCalls, isJAASCall, hc]
    · simp only [runIsJAASCalls, isJAASCall]
      simp only [List.pairwise_cons]
      refine ⟨?_, ?_⟩
      · intro b hb
        exact (hr b (by simpa using hb)).symm
      · exact pairwise_eq_of_const (fun r h => by simpa using hr r (by simpa using h))

/-- Round-trip evaluation of the read-side conversion on the spec's
classification scenario, instantiating the collaborator parameters with
the spec-modelled tag parser and service-account check: the service-account
user tag lands in the service-account set, the plain user tag in the user
set, the group tag in the group set, with no diagnostics recorded. -/
theorem tuplesToPlan_roundtrip_scenario_eval :
    tuplesToPlan parseTagModel isValidServiceAccountIdModel
        [⟨"user-alice@serviceaccount", "reader", "model-1"⟩,
          ⟨"user-bob", "reader", "model-1"⟩,
          ⟨"group-admins", "reader", "model-1"⟩] =
      ⟨["bob"], ["admins"], ["alice@serviceaccount"], 0⟩ := by
  decide
